import Mathlib

/-!
Verification of the liblisa-x64-kmod observation engine against its
natural-language specification.

The repository ships the wire-level header `module/lisakmod.h`, which fixes the
request/response record layout (`lisa_ioctl_struct`, `lisa_observe_result_t`,
`cmd_munmap_t`, `cmd_mmap_t`) and the two ioctl entry points
(`LKMC_IOCTL_PREPARE`, documented as "Take an int, increment it", and
`LKMC_IOCTL_OBSERVE`).  The module implementation itself is not part of the
sources, so the behavioural components (session negotiator, mapping
transaction manager, execution controller, outcome capturer) are modelled
from the specification text; every such definition is marked
`Modelled from the spec:` in its doc comment.
-/

namespace Lisa

/-! Section: Wire-level records, from `module/lisakmod.h` -/

/-- Embedding of `cmd_munmap_t`: a single unmap command, carrying only the
virtual address whose containing mapping must be removed.  The `uint64_t`
address is embedded as a `Nat` (no arithmetic is performed on it). -/
structure cmd_munmap_t where
  addr : Nat
  deriving DecidableEq

/-- Embedding of `cmd_mmap_t`: a single map command with an address, a backing
file descriptor (`int32_t`, negative means anonymous) and protection bits
(`uint8_t`). -/
structure cmd_mmap_t where
  addr : Nat
  fd : Int
  prot : Nat
  deriving DecidableEq

/-- Embedding of `lisa_ioctl_struct`: the observe request as it crosses the
ioctl boundary.  The unmap and map lists are fixed 32-slot arrays (embedded as
total functions on `Fin 32`), while `num_unmaps` and `num_maps` are
independent unsigned size fields (`size_t`, embedded as `Nat`), so the type
itself does not tie the counts to the array capacity.  The `regs` and
`result` pointers are embedded as opaque addresses. -/
structure lisa_ioctl_struct where
  pid : Int
  num_unmaps : Nat
  num_maps : Nat
  mapping_flags : Int
  unmaps : Fin 32 → cmd_munmap_t
  maps : Fin 32 → cmd_mmap_t
  regs : Nat
  result : Nat

/-- Bounds-checked read of slot `i` of the `unmaps` array: the C expression
`s.unmaps[i]` stays inside the object only when `i < 32`, which this embedding
makes explicit by returning `none` out of bounds. -/
def lisa_ioctl_struct.unmapAt (s : lisa_ioctl_struct) (i : Nat) : Option cmd_munmap_t :=
  if h : i < 32 then some (s.unmaps ⟨i, h⟩) else none

/-- Bounds-checked read of slot `i` of the `maps` array, as for `unmapAt`. -/
def lisa_ioctl_struct.mapAt (s : lisa_ioctl_struct) (i : Nat) : Option cmd_mmap_t :=
  if h : i < 32 then some (s.maps ⟨i, h⟩) else none

/-! Section: Address-space model -/

/-- Modelled from the spec: one live mapping in the target's address space.
The request's `cmd_mmap_t` carries no length, so mappings are modelled at the
granularity of the spec's `MapOp` — one mapping per address, and a map whose
address coincides with a still-present mapping is the overlap case. -/
structure Mapping where
  addr : Nat
  fd : Int
  prot : Nat
  deriving DecidableEq

/-- Modelled from the spec: the target process's set of virtual-memory
mappings, as an association list keyed by address. -/
abbrev AddressSpace := List Mapping

/-- Look up the mapping at address `a`, if present. -/
def lookupAddr (as : AddressSpace) (a : Nat) : Option Mapping :=
  as.find? (fun m => m.addr == a)

/-- Remove every mapping at address `a`. -/
def removeAddr (as : AddressSpace) (a : Nat) : AddressSpace :=
  as.filter (fun m => m.addr != a)

/-- The mapping built by one `cmd_mmap_t` command. -/
def mkMapping (c : cmd_mmap_t) : Mapping :=
  ⟨c.addr, c.fd, c.prot⟩

/-- Two address spaces expose the same mapping set when every address resolves
to the same mapping in both. -/
def spaceEquiv (x y : AddressSpace) : Prop :=
  ∀ a, lookupAddr x a = lookupAddr y a

/-! Section: Error taxonomy -/

/-- Modelled from the spec: the error taxonomy of section 7 — protocol errors
(`IncompatibleVersion`, the capacity error for oversized requests), resolution
errors, transactional errors and contention. -/
inductive LisaError where
  | IncompatibleVersion
  | CapacityExceeded
  | NoSuchProcess
  | PermissionDenied
  | MappingConflict
  | InvalidRegisterState
  | ProcessBusy
  deriving DecidableEq

/-! Section: Mapping transaction manager (spec section 4.2) -/

/-- Modelled from the spec: one entry of the per-transaction undo log — either
a mapping that the transaction removed (undone by re-adding it) or the address
of a mapping the transaction freshly created (undone by removing it). -/
inductive UndoEntry where
  | unmapped (m : Mapping)
  | mapped (a : Nat)
  deriving DecidableEq

/-- Modelled from the spec: one primitive mutation applied to the target's
address space, recorded so that the order of operations is observable. -/
inductive PrimOp where
  | unmapped (a : Nat)
  | mapped (a : Nat)
  deriving DecidableEq

/-- Whether a recorded primitive operation is an unmap. -/
def PrimOp.isUnmap : PrimOp → Bool
  | .unmapped _ => true
  | .mapped _ => false

/-- Modelled from the spec: the in-flight state of one mapping transaction —
the current address space, the undo log (most recent entry first) and the
trace of primitive operations applied so far (oldest first). -/
structure TxState where
  space : AddressSpace
  log : List UndoEntry
  trace : List PrimOp

/-- Modelled from the spec: undo a single logged operation. -/
def undo1 (as : AddressSpace) : UndoEntry → AddressSpace
  | .unmapped m => m :: as
  | .mapped a => removeAddr as a

/-- Modelled from the spec: revert a partial transaction by replaying its undo
log, most recent entry first. -/
def rollback (as : AddressSpace) (log : List UndoEntry) : AddressSpace :=
  log.foldl undo1 as

/-- Modelled from the spec: apply one unmap command.  An address that is not
currently mapped is a no-op (tolerant-unmap policy); a present mapping is
removed and saved in the undo log. -/
def applyUnmap1 (st : TxState) (u : cmd_munmap_t) : TxState :=
  match lookupAddr st.space u.addr with
  | none =>
      { st with trace := st.trace ++ [PrimOp.unmapped u.addr] }
  | some m =>
      { space := removeAddr st.space u.addr
        log := UndoEntry.unmapped m :: st.log
        trace := st.trace ++ [PrimOp.unmapped u.addr] }

/-- Modelled from the spec: apply the request's unmap list, in list order. -/
def runUnmaps (st : TxState) : List cmd_munmap_t → TxState
  | [] => st
  | u :: us => runUnmaps (applyUnmap1 st u) us

/-- Modelled from the spec: apply one map command.  A map whose address
overlaps a still-present mapping is a `MappingConflict`; otherwise the fresh
mapping is added and its address logged for undo. -/
def applyMap1 (st : TxState) (c : cmd_mmap_t) : Option TxState :=
  match lookupAddr st.space c.addr with
  | some _ => none
  | none =>
      some { space := mkMapping c :: st.space
             log := UndoEntry.mapped c.addr :: st.log
             trace := st.trace ++ [PrimOp.mapped c.addr] }

/-- Modelled from the spec: apply the request's map list, in list order,
stopping at the first conflict. -/
def runMaps (st : TxState) : List cmd_mmap_t → TxState × Option LisaError
  | [] => (st, none)
  | c :: cs =>
      match applyMap1 st c with
      | some st' => runMaps st' cs
      | none => (st, some LisaError.MappingConflict)

/-- Result of one mapping transaction: the address space left behind (the new
space on success, the rolled-back space on failure), the operation trace, and
the error if any. -/
structure TxResult where
  space : AddressSpace
  trace : List PrimOp
  error : Option LisaError

/-- Modelled from the spec: the mapping transaction manager.  Unmaps are
applied first, in list order, then maps, in list order; if any map step fails
the undo log accumulated so far (covering both the unmaps and the prior maps)
is replayed before the error is surfaced. -/
def applyTransaction (as : AddressSpace) (us : List cmd_munmap_t)
    (cs : List cmd_mmap_t) : TxResult :=
  match runMaps (runUnmaps ⟨as, [], []⟩ us) cs with
  | (st, none) => ⟨st.space, st.trace, none⟩
  | (st, some e) => ⟨rollback st.space st.log, st.trace, some e⟩

/-! Section: Session negotiator (spec section 4.1, header `LKMC_IOCTL_PREPARE`) -/

/-- Acknowledgement transform of the handshake, from the header's contract for
`LKMC_IOCTL_PREPARE`: take an int, increment it. -/
def prepareTransform (x : Int) : Int := x + 1

/-- Modelled from the spec: whether the target process is currently running or
suspended (execution-controller state machine, section 4.4). -/
inductive ProcState where
  | Suspended
  | Running
  deriving DecidableEq

/-- Modelled from the spec: a controller-supplied full register snapshot —
general-purpose registers, program counter and flags at minimum. -/
structure RegisterSnapshot where
  gpr : List Int
  pc : Int
  flags : Int
  deriving DecidableEq

/-- Modelled from the spec: the engine-side session state — the per-session
handshake flag, the target's address space, its run/suspend state and its live
register file.  The engine is otherwise stateless across requests. -/
structure Engine where
  handshaken : Bool
  space : AddressSpace
  procState : ProcState
  regs : RegisterSnapshot

/-- Modelled from the spec: the handshake operation.  The implementation of
the version check is not in the sources, so which tokens are supported is a
parameter; a supported token marks the session handshaken and returns the
incremented acknowledgement, an unsupported one fails with
`IncompatibleVersion` and leaves the session unchanged. -/
def doHandshake (supported : Int → Bool) (eng : Engine) (tok : Int) :
    Engine × Except LisaError Int :=
  if supported tok then
    ({ eng with handshaken := true }, Except.ok (prepareTransform tok))
  else
    (eng, Except.error LisaError.IncompatibleVersion)

/-! Section: Execution controller and outcome capturer (spec sections 4.4, 4.5) -/

/-- Modelled from the spec: the terminal states of the execution-controller
state machine.  `Trapped` and `Faulted` carry the signal triple
(`si_signo`, `si_code`, `si_errno`); `Faulted` additionally records whether
the fault is address-related and, if so, the faulting address. -/
inductive TerminalState where
  | Trapped (signo code errno : Int)
  | Faulted (signo code errno : Int) (addrRelated : Bool) (faultAddr : Nat)
  | Exited (code : Int)
  | TimedOut
  deriving DecidableEq

/-- Modelled from the spec: bounded wait for the target to reach a terminal
state.  `check t` is what polling the target at time `t` reports; the fuel
argument is the remaining budget of the configurable timeout, so the wait is
structurally bounded. -/
def waitUpTo (check : Nat → Option TerminalState) : Nat → Nat → TerminalState
  | _, 0 => TerminalState.TimedOut
  | t, fuel + 1 =>
      match check t with
      | some s => s
      | none => waitUpTo check (t + 1) fuel

/-- Modelled from the spec: the only suspension point of an observation —
wait from time 0 for at most `timeout` polls, then force `TimedOut`. -/
def waitForStop (check : Nat → Option TerminalState) (timeout : Nat) :
    TerminalState :=
  waitUpTo check 0 timeout

/-- Modelled from the spec: the observation-result statuses of the outcome
capturer. -/
inductive Status where
  | stepped
  | fault
  | exited
  | timeout
  deriving DecidableEq

/-- Modelled from the spec: the `ObservationResult` record, the logical view
of the header's `lisa_observe_result_t` (`status`, `si_errno`, `si_code`,
`si_signo`, `optional_addr`).  Absent/sentinel fields are embedded as
`none`. -/
structure ObservationResult where
  status : Status
  si_signo : Option Int
  si_code : Option Int
  si_errno : Option Int
  faulting_address : Option Nat
  deriving DecidableEq

/-- Modelled from the spec: the outcome capturer — a pure marshalling of the
terminal state into the fixed result record.  Faulting address is populated
exactly for address-related faults; `TimedOut` carries sentinel signal and
error fields. -/
def captureOutcome : TerminalState → ObservationResult
  | .Trapped signo code errno =>
      ⟨Status.stepped, some signo, some code, some errno, none⟩
  | .Faulted signo code errno addrRelated faultAddr =>
      ⟨Status.fault, some signo, some code, some errno,
        if addrRelated then some faultAddr else none⟩
  | .Exited code =>
      ⟨Status.exited, some code, none, none, none⟩
  | .TimedOut =>
      ⟨Status.timeout, none, none, none, none⟩

/-! Section: The observe operation -/

/-- Modelled from the spec: the engine-level `ObservationRequest` of the data
model — target pid, ordered unmap and map lists, mapping flags and a register
snapshot.  The 32-entry capacity is a checked bound of the operation, not a
property of this type. -/
structure ObservationRequest where
  pid : Int
  unmaps : List cmd_munmap_t
  maps : List cmd_mmap_t
  mapping_flags : Int
  regs : RegisterSnapshot

/-- Modelled from the spec: the observe operation.  Guard order follows the
spec: the handshake gate sits at the entry of every non-handshake operation;
the 32-entry capacity limits are enforced before any mutation; then the
mapping transaction runs (rolling back on failure), the register snapshot is
injected, the target runs until a terminal state or the timeout bound, and
the outcome is captured with the target left suspended.  `check` abstracts
the target's execution behaviour, `timeout` is the configured bound. -/
def observe (check : Nat → Option TerminalState) (timeout : Nat)
    (eng : Engine) (req : ObservationRequest) :
    Engine × Except LisaError ObservationResult :=
  if eng.handshaken = false then
    (eng, Except.error LisaError.IncompatibleVersion)
  else if 32 < req.unmaps.length ∨ 32 < req.maps.length then
    (eng, Except.error LisaError.CapacityExceeded)
  else
    match applyTransaction eng.space req.unmaps req.maps with
    | tx =>
        match tx.error with
        | some e => ({ eng with space := tx.space }, Except.error e)
        | none =>
            let t := waitForStop check timeout
            ({ eng with
                space := tx.space
                regs := req.regs
                procState := ProcState.Suspended },
              Except.ok (captureOutcome t))

/-! Section: Lookup and removal lemmas -/

theorem lookupAddr_cons (m : Mapping) (as : AddressSpace) (a : Nat) :
    lookupAddr (m :: as) a = if m.addr = a then some m else lookupAddr as a := by
  by_cases h : m.addr = a
  · simp [lookupAddr, List.find?_cons, h]
  · simp [lookupAddr, List.find?_cons, h]

theorem removeAddr_cons (m : Mapping) (as : AddressSpace) (b : Nat) :
    removeAddr (m :: as) b =
      if m.addr = b then removeAddr as b else m :: removeAddr as b := by
  by_cases h : m.addr = b <;> simp [removeAddr, List.filter_cons, h]

theorem lookupAddr_removeAddr (as : AddressSpace) (a b : Nat) :
    lookupAddr (removeAddr as b) a = if a = b then none else lookupAddr as a := by
  induction as with
  | nil => simp [lookupAddr, removeAddr]
  | cons m as ih =>
      rw [removeAddr_cons, lookupAddr_cons]
      by_cases hmb : m.addr = b
      · rw [if_pos hmb, ih]
        by_cases hab : a = b
        · simp [hab]
        · have hma : m.addr ≠ a := by rw [hmb]; exact fun h => hab h.symm
          simp [hab, hma]
      · rw [if_neg hmb, lookupAddr_cons, ih]
        by_cases hma : m.addr = a
        · have hab : ¬ a = b := fun h => hmb (hma.trans h)
          simp [hma, hab]
        · simp [hma]

theorem lookupAddr_eq_some_addr {as : AddressSpace} {u : Nat} {m : Mapping}
    (h : lookupAddr as u = some m) : m.addr = u := by
  have h' : as.find? (fun x => x.addr == u) = some m := h
  have := List.find?_some h'
  simpa using this

theorem removeAddr_of_lookup_none {as : AddressSpace} {b : Nat}
    (h : lookupAddr as b = none) : removeAddr as b = as := by
  have h' : as.find? (fun x => x.addr == b) = none := h
  have h2 := List.find?_eq_none.mp h'
  apply List.filter_eq_self.mpr
  intro m hm
  simpa using h2 m hm

/-! Section: Space-equivalence lemmas -/

theorem spaceEquiv_refl (x : AddressSpace) : spaceEquiv x x :=
  fun _ => rfl

theorem spaceEquiv_trans {x y z : AddressSpace}
    (h1 : spaceEquiv x y) (h2 : spaceEquiv y z) : spaceEquiv x z :=
  fun a => (h1 a).trans (h2 a)

theorem undo1_congr {x y : AddressSpace} (h : spaceEquiv x y) (e : UndoEntry) :
    spaceEquiv (undo1 x e) (undo1 y e) := by
  cases e with
  | unmapped m => intro a; simp [undo1, lookupAddr_cons, h a]
  | mapped b => intro a; simp [undo1, lookupAddr_removeAddr, h a]

theorem rollback_cons (as : AddressSpace) (e : UndoEntry) (log : List UndoEntry) :
    rollback as (e :: log) = rollback (undo1 as e) log := rfl

theorem rollback_congr {x y : AddressSpace} (log : List UndoEntry)
    (h : spaceEquiv x y) : spaceEquiv (rollback x log) (rollback y log) := by
  induction log generalizing x y with
  | nil => exact h
  | cons e log ih => exact ih (undo1_congr h e)

theorem cons_removeAddr_equiv {as : AddressSpace} {u : Nat} {m : Mapping}
    (h : lookupAddr as u = some m) :
    spaceEquiv (m :: removeAddr as u) as := by
  intro a
  have hmu : m.addr = u := lookupAddr_eq_some_addr h
  rw [lookupAddr_cons, lookupAddr_removeAddr]
  by_cases hau : a = u
  · subst hau
    simp [hmu, h]
  · have hma : m.addr ≠ a := by rw [hmu]; exact fun hh => hau hh.symm
    simp [hma, hau]

/-! Section: Rollback correctness of the transaction phases -/

theorem applyUnmap1_rollback (st : TxState) (u : cmd_munmap_t) :
    spaceEquiv (rollback (applyUnmap1 st u).space (applyUnmap1 st u).log)
      (rollback st.space st.log) := by
  cases h : lookupAddr st.space u.addr with
  | none =>
      simp only [applyUnmap1, h]
      exact spaceEquiv_refl _
  | some m =>
      simp only [applyUnmap1, h]
      rw [rollback_cons]
      exact rollback_congr st.log (cons_removeAddr_equiv h)

theorem runUnmaps_rollback (us : List cmd_munmap_t) (st : TxState) :
    spaceEquiv (rollback (runUnmaps st us).space (runUnmaps st us).log)
      (rollback st.space st.log) := by
  induction us generalizing st with
  | nil => exact spaceEquiv_refl _
  | cons u us ih =>
      exact spaceEquiv_trans (ih (applyUnmap1 st u)) (applyUnmap1_rollback st u)

theorem applyMap1_rollback {st st' : TxState} {c : cmd_mmap_t}
    (h : applyMap1 st c = some st') :
    spaceEquiv (rollback st'.space st'.log) (rollback st.space st.log) := by
  unfold applyMap1 at h
  cases hl : lookupAddr st.space c.addr with
  | some m => rw [hl] at h; cases h
  | none =>
      rw [hl] at h
      injection h with h'
      subst h'
      rw [rollback_cons]
      have hu : undo1 (mkMapping c :: st.space) (UndoEntry.mapped c.addr)
          = st.space := by
        show removeAddr (mkMapping c :: st.space) c.addr = st.space
        rw [removeAddr_cons]
        simp [mkMapping, removeAddr_of_lookup_none hl]
      rw [hu]
      exact spaceEquiv_refl _

theorem runMaps_rollback (cs : List cmd_mmap_t) (st : TxState) :
    spaceEquiv (rollback (runMaps st cs).1.space (runMaps st cs).1.log)
      (rollback st.space st.log) := by
  induction cs generalizing st with
  | nil => exact spaceEquiv_refl _
  | cons c cs ih =>
      cases h : applyMap1 st c with
      | some st' =>
          have hr : runMaps st (c :: cs) = runMaps st' cs := by
            simp [runMaps, h]
          rw [hr]
          exact spaceEquiv_trans (ih st') (applyMap1_rollback h)
      | none =>
          have hr : runMaps st (c :: cs) = (st, some LisaError.MappingConflict) := by
            simp [runMaps, h]
          rw [hr]
          exact spaceEquiv_refl _

theorem applyTransaction_rollback (as : AddressSpace) (us : List cmd_munmap_t)
    (cs : List cmd_mmap_t) (e : LisaError)
    (h : (applyTransaction as us cs).error = some e) :
    spaceEquiv (applyTransaction as us cs).space as := by
  have h1 := runMaps_rollback cs (runUnmaps ⟨as, [], []⟩ us)
  have h2 := runUnmaps_rollback us ⟨as, [], []⟩
  rcases hr : runMaps (runUnmaps ⟨as, [], []⟩ us) cs with ⟨st, oe⟩
  rw [hr] at h1
  cases oe with
  | none => simp [applyTransaction, hr] at h
  | some e' =>
      have hres : applyTransaction as us cs
          = ⟨rollback st.space st.log, st.trace, some e'⟩ := by
        simp [applyTransaction, hr]
      rw [hres]
      exact spaceEquiv_trans h1 h2

/-! Section: Trace lemmas: order of applied operations -/

theorem applyUnmap1_trace (st : TxState) (u : cmd_munmap_t) :
    (applyUnmap1 st u).trace = st.trace ++ [PrimOp.unmapped u.addr] := by
  unfold applyUnmap1
  cases lookupAddr st.space u.addr <;> rfl

theorem runUnmaps_trace (us : List cmd_munmap_t) (st : TxState) :
    (runUnmaps st us).trace
      = st.trace ++ us.map (fun u => PrimOp.unmapped u.addr) := by
  induction us generalizing st with
  | nil => simp [runUnmaps]
  | cons u us ih =>
      have h : runUnmaps st (u :: us) = runUnmaps (applyUnmap1 st u) us := rfl
      rw [h, ih, applyUnmap1_trace]
      simp

theorem runMaps_trace (cs : List cmd_mmap_t) (st : TxState) :
    ∃ k, (runMaps st cs).1.trace
      = st.trace ++ (cs.map (fun c => PrimOp.mapped c.addr)).take k := by
  induction cs generalizing st with
  | nil => exact ⟨0, by simp [runMaps]⟩
  | cons c cs ih =>
      cases h : applyMap1 st c with
      | none =>
          refine ⟨0, ?_⟩
          simp [runMaps, h]
      | some st' =>
          obtain ⟨k, hk⟩ := ih st'
          refine ⟨k + 1, ?_⟩
          have hr : runMaps st (c :: cs) = runMaps st' cs := by
            simp [runMaps, h]
          have htr : st'.trace = st.trace ++ [PrimOp.mapped c.addr] := by
            unfold applyMap1 at h
            cases hl : lookupAddr st.space c.addr with
            | some m => rw [hl] at h; cases h
            | none => rw [hl] at h; injection h with h'; subst h'; rfl
          rw [hr, hk, htr]
          simp

theorem runMaps_append (st : TxState) (cs1 cs2 : List cmd_mmap_t) :
    runMaps st (cs1 ++ cs2)
      = match runMaps st cs1 with
        | (st', none) => runMaps st' cs2
        | (st', some e) => (st', some e) := by
  induction cs1 generalizing st with
  | nil => simp [runMaps]
  | cons c cs1 ih =>
      cases h : applyMap1 st c with
      | some st' => simp [runMaps, h, ih]
      | none => simp [runMaps, h]

/-! Section: Bounded-wait lemmas -/

theorem waitUpTo_timedOut (check : Nat → Option TerminalState) :
    ∀ (fuel t0 : Nat), (∀ t, t0 ≤ t → t < t0 + fuel → check t = none) →
      waitUpTo check t0 fuel = TerminalState.TimedOut := by
  intro fuel
  induction fuel with
  | zero => intro t0 _; rfl
  | succ n ih =>
      intro t0 h
      have h0 : check t0 = none := h t0 le_rfl (by omega)
      simp only [waitUpTo, h0]
      exact ih (t0 + 1) (fun t ht1 ht2 => h t (by omega) (by omega))

theorem waitForStop_timedOut (check : Nat → Option TerminalState) (timeout : Nat)
    (h : ∀ t, t < timeout → check t = none) :
    waitForStop check timeout = TerminalState.TimedOut :=
  waitUpTo_timedOut check timeout 0 (fun t _ ht => h t (by omega))

/-! Section: Shape of a completed observe call -/

theorem observe_ok_inv (check : Nat → Option TerminalState) (timeout : Nat)
    (eng : Engine) (req : ObservationRequest) (eng' : Engine)
    (r : ObservationResult)
    (h : observe check timeout eng req = (eng', Except.ok r)) :
    eng' = { eng with
        space := (applyTransaction eng.space req.unmaps req.maps).space
        regs := req.regs
        procState := ProcState.Suspended } ∧
    r = captureOutcome (waitForStop check timeout) := by
  unfold observe at h
  by_cases h1 : eng.handshaken = false
  · rw [if_pos h1] at h
    simp at h
  · rw [if_neg h1] at h
    by_cases h2 : 32 < req.unmaps.length ∨ 32 < req.maps.length
    · rw [if_pos h2] at h
      simp at h
    · rw [if_neg h2] at h
      rcases htx : applyTransaction eng.space req.unmaps req.maps with ⟨sp, tr, oe⟩
      rw [htx] at h
      cases oe with
      | some e => simp at h
      | none =>
          simp at h
          exact ⟨h.1.symm, h.2.symm⟩

/-! Section: Witness fixtures -/

/-- Register snapshot fixture used by the concrete witnesses. -/
def regs0 : RegisterSnapshot := ⟨[], 0, 0⟩

/-! Section: Claim C1 -/

/-- C1: for an observe request whose unmap and map lists are within the
32-entry bound, if any map step of the mapping transaction fails, all mapping
operations already applied in the transaction (unmaps and prior maps) are
reverted before the error is surfaced, so the target's address-space mapping
set after the call equals the mapping set before the call. -/
theorem observe_rollback_on_map_failure
    (check : Nat → Option TerminalState) (timeout : Nat) (eng : Engine)
    (req : ObservationRequest) (e : LisaError)
    (hh : eng.handshaken = true)
    (hu : req.unmaps.length ≤ 32) (hm : req.maps.length ≤ 32)
    (hfail : (applyTransaction eng.space req.unmaps req.maps).error = some e) :
    (observe check timeout eng req).2 = Except.error e ∧
    spaceEquiv (observe check timeout eng req).1.space eng.space := by
  have hcap : ¬ (32 < req.unmaps.length ∨ 32 < req.maps.length) := by omega
  have hroll := applyTransaction_rollback eng.space req.unmaps req.maps e hfail
  rcases htx : applyTransaction eng.space req.unmaps req.maps with ⟨sp, tr, oe⟩
  rw [htx] at hfail hroll
  simp only [] at hfail
  have hoe : oe = some e := hfail
  subst hoe
  have hobs : observe check timeout eng req
      = ({ eng with space := sp }, Except.error e) := by
    unfold observe
    rw [if_neg (by simp [hh]), if_neg hcap, htx]
  rw [hobs]
  exact ⟨rfl, hroll⟩

/-- Engine fixture for C1: a handshaken session whose target has one mapping
at address 5. -/
def engW1 : Engine := ⟨true, [⟨5, -1, 3⟩], ProcState.Suspended, regs0⟩

/-- Request fixture for C1: maps address 5, which is still present, so the
map step fails with a conflict. -/
def reqW1 : ObservationRequest := ⟨1, [], [⟨5, -1, 3⟩], 0, regs0⟩

theorem observe_rollback_on_map_failure_witness :
    (observe (fun _ => none) 1 engW1 reqW1).2
      = Except.error LisaError.MappingConflict :=
  (observe_rollback_on_map_failure (fun _ => none) 1 engW1 reqW1
      LisaError.MappingConflict rfl (by decide) (by decide) (by decide)).1

/-! Section: Claim C2 -/

/-- C2: an observe request with more than 32 unmap entries or more than 32
map entries is rejected with the capacity error before any mutation of the
target: the engine state comes back unchanged. -/
theorem observe_capacity_guard (check : Nat → Option TerminalState)
    (timeout : Nat) (eng : Engine) (req : ObservationRequest)
    (hh : eng.handshaken = true)
    (hover : 32 < req.unmaps.length ∨ 32 < req.maps.length) :
    observe check timeout eng req
      = (eng, Except.error LisaError.CapacityExceeded) := by
  unfold observe
  rw [if_neg (by simp [hh]), if_pos hover]

/-- Engine fixture for C2: a handshaken session with an empty address
space. -/
def engW2 : Engine := ⟨true, [], ProcState.Suspended, regs0⟩

/-- Request fixture for C2: 33 unmap entries, exceeding the capacity. -/
def reqW2 : ObservationRequest := ⟨1, List.replicate 33 ⟨0⟩, [], 0, regs0⟩

theorem observe_capacity_guard_witness :
    observe (fun _ => none) 1 engW2 reqW2
      = (engW2, Except.error LisaError.CapacityExceeded) :=
  observe_capacity_guard (fun _ => none) 1 engW2 reqW2 rfl (by decide)

/-! Section: Claim C3 -/

/-- C3: in every mapping transaction, the unmap operations are applied in the
request's list order and all of them are applied before any map operation of
the same request: the trace of applied primitive operations is the unmap list
in order, followed by a prefix of the map list in order. -/
theorem applyTransaction_unmaps_before_maps (as : AddressSpace)
    (us : List cmd_munmap_t) (cs : List cmd_mmap_t) :
    ∃ k, (applyTransaction as us cs).trace
      = us.map (fun u => PrimOp.unmapped u.addr)
        ++ (cs.map (fun c => PrimOp.mapped c.addr)).take k := by
  obtain ⟨k, hk⟩ := runMaps_trace cs (runUnmaps ⟨as, [], []⟩ us)
  have hu := runUnmaps_trace us ⟨as, [], []⟩
  refine ⟨k, ?_⟩
  rcases hr : runMaps (runUnmaps ⟨as, [], []⟩ us) cs with ⟨st, oe⟩
  rw [hr] at hk
  have htr : (applyTransaction as us cs).trace = st.trace := by
    cases oe <;> simp [applyTransaction, hr]
  rw [htr, hk, hu]
  simp

/-! Section: Claim C4 -/

/-- C4: if, after the unmaps and some successfully applied maps, the next map
operation names an address that overlaps a still-present mapping, the whole
transaction fails with `MappingConflict` and no map of the request remains
applied: the resulting mapping set equals the pre-request one. -/
theorem map_conflict_fails_transaction (as : AddressSpace)
    (us : List cmd_munmap_t) (ms1 ms2 : List cmd_mmap_t) (c : cmd_mmap_t)
    (m : Mapping)
    (hok : (runMaps (runUnmaps ⟨as, [], []⟩ us) ms1).2 = none)
    (hconf : lookupAddr (runMaps (runUnmaps ⟨as, [], []⟩ us) ms1).1.space c.addr
        = some m) :
    (applyTransaction as us (ms1 ++ c :: ms2)).error
        = some LisaError.MappingConflict ∧
    spaceEquiv (applyTransaction as us (ms1 ++ c :: ms2)).space as := by
  rcases h1 : runMaps (runUnmaps ⟨as, [], []⟩ us) ms1 with ⟨stM, oe⟩
  rw [h1] at hok hconf
  have hoe : oe = none := hok
  subst hoe
  have hrun : runMaps (runUnmaps ⟨as, [], []⟩ us) (ms1 ++ c :: ms2)
      = (stM, some LisaError.MappingConflict) := by
    rw [runMaps_append, h1]
    simp [runMaps, applyMap1, hconf]
  have herr : (applyTransaction as us (ms1 ++ c :: ms2)).error
      = some LisaError.MappingConflict := by
    simp [applyTransaction, hrun]
  exact ⟨herr,
    applyTransaction_rollback as us (ms1 ++ c :: ms2)
      LisaError.MappingConflict herr⟩

/-- Address-space fixture for C4: one mapping at address 5. -/
def spaceW4 : AddressSpace := [⟨5, -1, 3⟩]

/-- Map command fixture for C4: maps address 5, overlapping the present
mapping. -/
def cmdW4 : cmd_mmap_t := ⟨5, -1, 3⟩

theorem map_conflict_fails_transaction_witness :
    (applyTransaction spaceW4 [] ([] ++ cmdW4 :: [])).error
      = some LisaError.MappingConflict :=
  (map_conflict_fails_transaction spaceW4 [] [] [] cmdW4 ⟨5, -1, 3⟩
      (by decide) (by decide)).1

/-! Section: Claim C5 -/

/-- C5: no observation request is serviced before a successful handshake:
observe is guarded at its entry, and after a handshake that failed with
`IncompatibleVersion` the session is unchanged and a subsequent observe call
on it fails without attempting any mutation. -/
theorem handshake_gates_observe (supported : Int → Bool) (tok : Int)
    (eng : Engine) (check : Nat → Option TerminalState) (timeout : Nat)
    (req : ObservationRequest)
    (hunsup : supported tok = false) (h0 : eng.handshaken = false) :
    (doHandshake supported eng tok).2
        = Except.error LisaError.IncompatibleVersion ∧
    (doHandshake supported eng tok).1 = eng ∧
    observe check timeout (doHandshake supported eng tok).1 req
      = ((doHandshake supported eng tok).1,
          Except.error LisaError.IncompatibleVersion) := by
  have hd : doHandshake supported eng tok
      = (eng, Except.error LisaError.IncompatibleVersion) := by
    simp [doHandshake, hunsup]
  refine ⟨by rw [hd], by rw [hd], ?_⟩
  rw [hd]
  unfold observe
  rw [if_pos h0]

/-- Engine fixture for C5: a session that has not completed a handshake. -/
def engW5 : Engine := ⟨false, [], ProcState.Suspended, regs0⟩

/-- Request fixture for C5: an empty observe request. -/
def reqW5 : ObservationRequest := ⟨1, [], [], 0, regs0⟩

theorem handshake_gates_observe_witness :
    (doHandshake (fun _ => false) engW5 7).2
      = Except.error LisaError.IncompatibleVersion :=
  (handshake_gates_observe (fun _ => false) 7 engW5 (fun _ => none) 1 reqW5
      rfl rfl).1

/-! Section: Claim C6 -/

/-- C6: every observe call that completes produces exactly one observation
result — the capture of the unique terminal state reached — and leaves the
target process suspended after result capture; the engine issues no further
transition until its next operation. -/
theorem observe_leaves_suspended (check : Nat → Option TerminalState)
    (timeout : Nat) (eng : Engine) (req : ObservationRequest)
    (eng' : Engine) (r : ObservationResult)
    (h : observe check timeout eng req = (eng', Except.ok r)) :
    eng'.procState = ProcState.Suspended ∧
    r = captureOutcome (waitForStop check timeout) := by
  obtain ⟨he, hr⟩ := observe_ok_inv check timeout eng req eng' r h
  exact ⟨by rw [he], hr⟩

/-- Engine fixture for C6: a handshaken session with an empty address
space. -/
def engW6 : Engine := ⟨true, [], ProcState.Suspended, regs0⟩

/-- Request fixture for C6: an empty observe request. -/
def reqW6 : ObservationRequest := ⟨1, [], [], 0, regs0⟩

theorem observe_leaves_suspended_witness :
    engW6.procState = ProcState.Suspended ∧
    (⟨Status.timeout, none, none, none, none⟩ : ObservationResult)
      = captureOutcome (waitForStop (fun _ => none) 0) :=
  observe_leaves_suspended (fun _ => none) 0 engW6 reqW6 engW6
    ⟨Status.timeout, none, none, none, none⟩ rfl

/-! Section: Claim C7 -/

/-- C7: the outcome capturer maps each terminal state to the fixed result
record: `Trapped` yields status stepped with the step-trap signal triple and
no faulting address; `Faulted` yields status fault with the faulting address
populated exactly when the fault is address-related; `TimedOut` yields status
timeout with sentinel signal and error fields and no faulting address. -/
theorem captureOutcome_spec :
    (∀ signo code errno,
        captureOutcome (TerminalState.Trapped signo code errno)
          = ⟨Status.stepped, some signo, some code, some errno, none⟩) ∧
    (∀ signo code errno addrRelated faultAddr,
        captureOutcome
            (TerminalState.Faulted signo code errno addrRelated faultAddr)
          = ⟨Status.fault, some signo, some code, some errno,
              if addrRelated then some faultAddr else none⟩) ∧
    (captureOutcome TerminalState.TimedOut
        = ⟨Status.timeout, none, none, none, none⟩) :=
  ⟨fun _ _ _ => rfl, fun _ _ _ _ _ => rfl, rfl⟩

/-! Section: Claim C8 -/

/-- C8: the wait for a terminal state is the only suspension point of observe
and is bounded by the configured timeout: if the target reaches no stopping
state within the bound, observe returns the timeout outcome and the target is
left forcibly suspended instead of being waited on unboundedly. -/
theorem observe_timeout_bounded (check : Nat → Option TerminalState)
    (timeout : Nat) (eng : Engine) (req : ObservationRequest)
    (hh : eng.handshaken = true)
    (hu : req.unmaps.length ≤ 32) (hm : req.maps.length ≤ 32)
    (htx : (applyTransaction eng.space req.unmaps req.maps).error = none)
    (hloop : ∀ t, t < timeout → check t = none) :
    (observe check timeout eng req).2
      = Except.ok (captureOutcome TerminalState.TimedOut) ∧
    (observe check timeout eng req).1.procState = ProcState.Suspended := by
  have hcap : ¬ (32 < req.unmaps.length ∨ 32 < req.maps.length) := by omega
  rcases hres : applyTransaction eng.space req.unmaps req.maps with ⟨sp, tr, oe⟩
  rw [hres] at htx
  have hoe : oe = none := htx
  subst hoe
  have hw := waitForStop_timedOut check timeout hloop
  have hobs : observe check timeout eng req
      = ({ eng with
            space := sp
            regs := req.regs
            procState := ProcState.Suspended },
          Except.ok (captureOutcome TerminalState.TimedOut)) := by
    unfold observe
    rw [if_neg (by simp [hh]), if_neg hcap, hres]
    simp [hw]
  rw [hobs]
  exact ⟨rfl, rfl⟩

/-- Engine fixture for C8: a handshaken session with an empty address
space. -/
def engW8 : Engine := ⟨true, [], ProcState.Suspended, regs0⟩

/-- Request fixture for C8: an empty observe request. -/
def reqW8 : ObservationRequest := ⟨1, [], [], 0, regs0⟩

theorem observe_timeout_bounded_witness :
    (observe (fun _ => none) 2 engW8 reqW8).2
      = Except.ok (captureOutcome TerminalState.TimedOut) :=
  (observe_timeout_bounded (fun _ => none) 2 engW8 reqW8 rfl (by decide)
      (by decide) (by decide) (fun _ _ => rfl)).1

/-! Section: Claim C9 -/

/-- C9: the handshake returns, for every accepted token, the incremented
token — a strictly order-preserving transformation of the input — and fails
with `IncompatibleVersion` on an unsupported token instead of returning a
token. -/
theorem handshake_contract (supported : Int → Bool) (eng : Engine)
    (tok : Int) :
    (supported tok = true →
      (doHandshake supported eng tok).2 = Except.ok (prepareTransform tok)) ∧
    (supported tok = false →
      (doHandshake supported eng tok).2
        = Except.error LisaError.IncompatibleVersion) ∧
    (∀ x y : Int, x < y → prepareTransform x < prepareTransform y) := by
  refine ⟨fun h => ?_, fun h => ?_, fun x y h => ?_⟩
  · simp [doHandshake, h]
  · simp [doHandshake, h]
  · unfold prepareTransform
    omega

/-- Engine fixture for C9: a fresh session. -/
def engW9 : Engine := ⟨false, [], ProcState.Suspended, regs0⟩

theorem handshake_contract_witness :
    (doHandshake (fun t => decide (0 ≤ t)) engW9 5).2
        = Except.ok (prepareTransform 5) ∧
    prepareTransform 1 < prepareTransform 2 :=
  ⟨(handshake_contract (fun t => decide (0 ≤ t)) engW9 5).1 (by decide),
   (handshake_contract (fun t => decide (0 ≤ t)) engW9 5).2.2 1 2 (by decide)⟩

/-! Section: Claim C10 -/

/-- Wire-struct fixture whose counts exceed the 32-slot arrays. -/
def overStruct : lisa_ioctl_struct :=
  ⟨0, 33, 33, 0, fun _ => ⟨0⟩, fun _ => ⟨0, 0, 0⟩, 0, 0⟩

/-- Wire-struct fixture with one unmap and one map. -/
def smallStruct : lisa_ioctl_struct :=
  ⟨0, 1, 1, 0, fun _ => ⟨0⟩, fun _ => ⟨0, 0, 0⟩, 0, 0⟩

/-- C10: the wire request type keeps the 32-slot arrays and the count fields
independent, so it admits counts above 32; indexing `unmaps[i]` for
`i < num_unmaps` (resp. `maps[i]` for `i < num_maps`) stays inside the array
for every `i` exactly under the precondition `num_unmaps ≤ 32`
(resp. `num_maps ≤ 32`), which the observe operation must check before
reading the entries. -/
theorem ioctl_struct_bounds :
    (∃ s : lisa_ioctl_struct, 32 < s.num_unmaps ∧ 32 < s.num_maps) ∧
    (∀ (s : lisa_ioctl_struct) (i : Nat), s.num_unmaps ≤ 32 →
        i < s.num_unmaps → (s.unmapAt i).isSome = true) ∧
    (∀ (s : lisa_ioctl_struct) (i : Nat), s.num_maps ≤ 32 →
        i < s.num_maps → (s.mapAt i).isSome = true) ∧
    (∃ (s : lisa_ioctl_struct) (i : Nat),
        i < s.num_unmaps ∧ s.unmapAt i = none) ∧
    (∃ (s : lisa_ioctl_struct) (i : Nat),
        i < s.num_maps ∧ s.mapAt i = none) := by
  refine ⟨⟨overStruct, by decide, by decide⟩, ?_, ?_,
    ⟨overStruct, 32, by decide, by decide⟩,
    ⟨overStruct, 32, by decide, by decide⟩⟩
  · intro s i hle hlt
    unfold lisa_ioctl_struct.unmapAt
    rw [dif_pos (by omega)]
    rfl
  · intro s i hle hlt
    unfold lisa_ioctl_struct.mapAt
    rw [dif_pos (by omega)]
    rfl

theorem ioctl_struct_bounds_witness :
    (smallStruct.unmapAt 0).isSome = true :=
  ioctl_struct_bounds.2.1 smallStruct 0 (by decide) (by decide)

end Lisa
